import Mathlib

/-!
Verification of the CiteOrDie backend against its specification.

Each Python function relevant to the checked claims is shallowly embedded
as an executable Lean definition, translated from the repository source:

* `app/tools/bbox_transform.py`       → `pyRound`, `convert_bbox_to_frontend`
* `app/domain/schema.py`              → `create_matrix_id`
* `app/tools/pdf_page_info.py`        → `get_pdf_page_dimensions`
* `app/datasources/crud.py`           → `find_by_file_hash`
* `app/api/analysis_endpoints.py`     → `analyze_decision`
* `app/components/clause_aggregator.py` → `clause_aggregator_node`
* `app/tools/section_slicer.py`       → `TitleMatcher` functions
* `app/services/quality_report.py`    → `generate_report`
* `pageindex/utils.py`                → `ChatGPT_API`, `ChatGPT_API_with_finish_reason`

Python floats are modelled as rationals (`ℚ`), Python strings as `String`
or `List Char` (code points), Python `None`-able values as `Option`.
-/

namespace CiteOrDie

/- ===================================================================
   bbox_transform.py
   =================================================================== -/

/-- Python built-in `round`: banker's rounding, halves go to the even
neighbour.  Modelled over `ℚ` (floats are modelled as rationals). -/
def pyRound (q : ℚ) : ℤ :=
  let f : ℤ := ⌊q⌋
  let r : ℚ := q - f
  if r < 1/2 then f
  else if 1/2 < r then f + 1
  else if f % 2 = 0 then f else f + 1

/-- `convert_bbox_to_frontend` from `app/tools/bbox_transform.py`:
flip a bbox from PDF-native (bottom-left origin) coordinates to frontend
(top-left origin) coordinates and round each entry to an integer.
A bbox that does not have exactly 4 elements yields `[0, 0, 0, 0]`. -/
def convert_bbox_to_frontend (bbox : List ℚ) (page_height : ℚ) : List ℤ :=
  match bbox with
  | [x1, y1, x2, y2] =>
      let y1_new := page_height - y2
      let y2_new := page_height - y1
      [pyRound x1, pyRound y1_new, pyRound x2, pyRound y2_new]
  | _ => [0, 0, 0, 0]

/- ===================================================================
   schema.py – create_matrix_id
   =================================================================== -/

/-- Left-pad a string with `'0'` up to width `w` (Python `str.zfill`). -/
def zfill (s : String) (w : Nat) : String :=
  String.mk (List.replicate (w - s.length) '0') ++ s

/-- Python `f"{n:03d}"`: decimal rendering zero-padded to overall width 3,
the sign counting towards the width. -/
def pyFormat03 (n : ℤ) : String :=
  if n < 0 then "-" ++ zfill (toString n.natAbs) 2
  else zfill (toString n.toNat) 3

/-- `create_matrix_id` from `app/domain/schema.py`:
`f"{section_id}-CLS-{sequence:03d}"`. -/
def create_matrix_id (section_id : String) (sequence : ℤ) : String :=
  section_id ++ "-CLS-" ++ pyFormat03 sequence

/- ===================================================================
   pdf_page_info.py – get_pdf_page_dimensions
   =================================================================== -/

/-- The possible outcomes of the I/O performed inside
`get_pdf_page_dimensions` (importing PyPDF2, checking file existence and
reading page boxes), abstracted as an input to the embedded function. -/
inductive PdfReadOutcome where
  | importError                       -- `import PyPDF2` raises ImportError
  | fileNotFound                      -- the input path does not exist
  | otherError                        -- any other failure while reading
  | success (dims : List (ℚ × ℚ))     -- pages read successfully
  deriving DecidableEq

inductive PdfError where
  | fileNotFoundError
  deriving DecidableEq

def DEFAULT_A4_WIDTH : ℚ := 595
def DEFAULT_A4_HEIGHT : ℚ := 842
def DEFAULT_FALLBACK_PAGES : Nat := 100

/-- `get_pdf_page_dimensions` from `app/tools/pdf_page_info.py`.
`ImportError` and generic read failures are swallowed and replaced by the
100-page A4 fallback; `FileNotFoundError` is re-raised
(`except FileNotFoundError: raise`), modelled as `Except.error`. -/
def get_pdf_page_dimensions : PdfReadOutcome → Except PdfError (List (ℚ × ℚ))
  | .importError => .ok (List.replicate DEFAULT_FALLBACK_PAGES (DEFAULT_A4_WIDTH, DEFAULT_A4_HEIGHT))
  | .fileNotFound => .error .fileNotFoundError
  | .otherError => .ok (List.replicate DEFAULT_FALLBACK_PAGES (DEFAULT_A4_WIDTH, DEFAULT_A4_HEIGHT))
  | .success dims => .ok dims

/- ===================================================================
   Theorems for C5, C6, C9
   =================================================================== -/

set_option maxRecDepth 10000 in
/-- Auxiliary: for every `k < 1000`, `zfill (toString k) 3` is exactly
3 characters, all decimal digits. -/
theorem zfill_three_digits :
    ∀ k : Nat, k < 1000 →
      (zfill (toString k) 3).length = 3 ∧
      ((zfill (toString k) 3).toList.all Char.isDigit) = true := by
  decide

/-- C5: `create_matrix_id(section_id, sequence)` is the section id
followed by `"-CLS-"` and the sequence zero-padded to 3 digits;
`create_matrix_id "3.1.2" 7 = "3.1.2-CLS-007"`, and for every section id
and sequence in `[1, 999]` the suffix after `"CLS-"` is exactly 3 digits. -/
theorem create_matrix_id_spec :
    create_matrix_id "3.1.2" 7 = "3.1.2-CLS-007" ∧
    ∀ (s : String) (n : ℤ), 1 ≤ n → n ≤ 999 →
      ∃ d : String, create_matrix_id s n = s ++ "-CLS-" ++ d ∧
        d.length = 3 ∧ (d.toList.all Char.isDigit) = true := by
  refine ⟨by decide, ?_⟩
  intro s n h1 h999
  refine ⟨pyFormat03 n, rfl, ?_⟩
  have hn : ¬ n < 0 := by omega
  have hlt : n.toNat < 1000 := by omega
  have := zfill_three_digits n.toNat hlt
  simpa [pyFormat03, hn] using this

/-- Witness for C5 at `s = "A"`, `n = 42`. -/
theorem create_matrix_id_spec_witness :
    ∃ d : String, create_matrix_id "A" 42 = "A" ++ "-CLS-" ++ d ∧
      d.length = 3 ∧ (d.toList.all Char.isDigit) = true :=
  create_matrix_id_spec.2 "A" 42 (by decide) (by decide)

/-- C6: for every 4-element bbox `[x1, y1, x2, y2]` and page height `H`,
`convert_bbox_to_frontend` returns
`[round x1, round (H - y2), round x2, round (H - y1)]`; in particular
`convert_bbox_to_frontend [100, 500, 300, 520] 800 = [100, 280, 300, 300]`. -/
theorem convert_bbox_to_frontend_spec :
    (∀ x1 y1 x2 y2 H : ℚ,
      convert_bbox_to_frontend [x1, y1, x2, y2] H =
        [pyRound x1, pyRound (H - y2), pyRound x2, pyRound (H - y1)]) ∧
    convert_bbox_to_frontend [100, 500, 300, 520] 800 = [100, 280, 300, 300] := by
  exact ⟨fun x1 y1 x2 y2 H => rfl, by norm_num [convert_bbox_to_frontend, pyRound]⟩

/-- C9 counterexample: on a nonexistent input path the code re-raises
`FileNotFoundError` instead of returning the 100-page A4 fallback. -/
theorem get_pdf_page_dimensions_file_not_found_raises :
    get_pdf_page_dimensions PdfReadOutcome.fileNotFound = Except.error PdfError.fileNotFoundError ∧
    get_pdf_page_dimensions PdfReadOutcome.fileNotFound ≠
      Except.ok (List.replicate DEFAULT_FALLBACK_PAGES (DEFAULT_A4_WIDTH, DEFAULT_A4_HEIGHT)) := by
  exact ⟨rfl, by simp [get_pdf_page_dimensions]⟩

/-- C9 (amended): a missing-library error or any read failure other than a
nonexistent input path yields a uniform fallback list of exactly 100 pages
each sized `(595, 842)` (A4); a nonexistent input path raises
`FileNotFoundError`; a successful read returns the pages as read. -/
theorem get_pdf_page_dimensions_fallback :
    get_pdf_page_dimensions PdfReadOutcome.importError =
      Except.ok (List.replicate 100 ((595 : ℚ), (842 : ℚ))) ∧
    get_pdf_page_dimensions PdfReadOutcome.otherError =
      Except.ok (List.replicate 100 ((595 : ℚ), (842 : ℚ))) ∧
    get_pdf_page_dimensions PdfReadOutcome.fileNotFound =
      Except.error PdfError.fileNotFoundError ∧
    ∀ dims, get_pdf_page_dimensions (PdfReadOutcome.success dims) = Except.ok dims := by
  exact ⟨rfl, rfl, rfl, fun dims => rfl⟩

/- ===================================================================
   crud.py – TaskRepository.find_by_file_hash
   and analysis_endpoints.py – analyze_document (idempotency decision)
   =================================================================== -/

/-- A row of the `tasks` table, restricted to the columns read by
`find_by_file_hash` and the idempotency check of `analyze_document`.
Timestamps are modelled as naturals (`completed_at` is nullable). -/
structure Task where
  task_id : String
  file_hash : String
  status : String
  created_at : Nat
  completed_at : Option Nat
  deriving DecidableEq, Repr

/-- `query(...).order_by(key.desc()).first()`: the first row attaining the
maximal key, earlier rows winning ties (models a stable descending sort). -/
def firstMaxBy (key : Task → Nat) : List Task → Option Task
  | [] => none
  | t :: ts =>
    match firstMaxBy key ts with
    | none => some t
    | some u => if key t < key u then some u else some t

/-- `TaskRepository.find_by_file_hash` from `app/datasources/crud.py`:
empty hash → `none`; otherwise prefer the completed task with the latest
`completed_at`, falling back to the task with the latest `created_at`
among all rows carrying the hash.  A SQL `NULL` `completed_at` sorts last
under `DESC`, modelled by `Option.getD 0`. -/
def find_by_file_hash (db : List Task) (file_hash : String) : Option Task :=
  if file_hash = "" then none
  else
    match firstMaxBy (fun t => t.completed_at.getD 0)
        (db.filter fun t => t.file_hash = file_hash ∧ t.status = "completed") with
    | some t => some t
    | none =>
      firstMaxBy (fun t => t.created_at)
        (db.filter fun t => t.file_hash = file_hash)

/-- The response of `POST /analyze`, restricted to the fields the
idempotency claim is about. -/
structure AnalyzeResponse where
  task_id : String
  reused : Bool
  deriving DecidableEq, Repr

/-- The idempotency decision of `analyze_document` from
`app/api/analysis_endpoints.py`: reuse a completed task, reuse a running
task, otherwise create a new task (with a fresh id `fresh_id`). -/
def analyze_decision (db : List Task) (file_hash : String) (fresh_id : String) :
    AnalyzeResponse :=
  match find_by_file_hash db file_hash with
  | some existing =>
    if existing.status = "completed" then
      { task_id := existing.task_id, reused := true }
    else if existing.status = "running" then
      { task_id := existing.task_id, reused := true }
    else
      { task_id := fresh_id, reused := false }
  | none => { task_id := fresh_id, reused := false }

theorem firstMaxBy_mem {key : Task → Nat} {l : List Task} {t : Task}
    (h : firstMaxBy key l = some t) : t ∈ l := by
  induction l generalizing t with
  | nil => simp [firstMaxBy] at h
  | cons a l ih =>
    simp only [firstMaxBy] at h
    cases hrec : firstMaxBy key l with
    | none => rw [hrec] at h; simp at h; simp [h]
    | some u =>
      rw [hrec] at h
      by_cases hk : key a < key u
      · simp [hk] at h; subst h; exact List.mem_cons_of_mem _ (ih hrec)
      · simp [hk] at h; simp [h]

theorem firstMaxBy_none {key : Task → Nat} {l : List Task} :
    firstMaxBy key l = none ↔ l = [] := by
  cases l with
  | nil => simp [firstMaxBy]
  | cons a l =>
    simp only [firstMaxBy]
    constructor
    · intro h
      cases hrec : firstMaxBy key l with
      | none => rw [hrec] at h; cases h
      | some u => rw [hrec] at h; by_cases hk : key a < key u <;> simp [hk] at h
    · intro h; cases h

theorem firstMaxBy_max {key : Task → Nat} {l : List Task} {t : Task}
    (h : firstMaxBy key l = some t) : ∀ u ∈ l, key u ≤ key t := by
  induction l generalizing t with
  | nil => simp [firstMaxBy] at h
  | cons a l ih =>
    intro u hu
    simp only [firstMaxBy] at h
    cases hrec : firstMaxBy key l with
    | none =>
      rw [hrec] at h; simp at h
      have hl : l = [] := firstMaxBy_none.mp hrec
      subst hl
      simp at hu
      subst h; subst hu; exact le_refl _
    | some v =>
      rw [hrec] at h
      rcases List.mem_cons.mp hu with hua | hul
      · subst hua
        by_cases hk : key u < key v
        · simp [hk] at h; subst h; exact le_of_lt hk
        · simp [hk] at h; subst h; exact le_refl _
      · have hv := ih hrec u hul
        by_cases hk : key a < key v
        · simp [hk] at h; subst h; exact hv
        · simp [hk] at h; subst h; omega

theorem firstMaxBy_all_eq {key : Task → Nat} {l : List Task} {t : Task}
    (hne : l ≠ []) (hall : ∀ u ∈ l, u = t) : firstMaxBy key l = some t := by
  induction l with
  | nil => cases hne rfl
  | cons a l ih =>
    have ha : a = t := hall a (List.mem_cons_self a l)
    simp only [firstMaxBy]
    cases hrec : firstMaxBy key l with
    | none => rw [ha]
    | some u =>
      have hu : u = t := hall u (List.mem_cons_of_mem _ (firstMaxBy_mem hrec))
      rw [ha, hu]
      by_cases hk : key t < key t <;> simp [hk]

/-- C1: `find_by_file_hash` returns the most recently completed task with
status `"completed"` carrying the hash when one exists, otherwise the most
recently created task carrying the hash regardless of status, and `none`
exactly when no task carries the hash; consequently, uploading
byte-identical content (same SHA-256) while the only task carrying that
hash is still `"running"` returns that task's `task_id` with
`reused = true` instead of creating a new task. -/
theorem find_by_file_hash_idempotency :
    ∀ (db : List Task) (h : String), h ≠ "" →
      (find_by_file_hash db h = none ↔ ∀ u ∈ db, u.file_hash ≠ h) ∧
      (∀ t, find_by_file_hash db h = some t → t ∈ db ∧ t.file_hash = h ∧
        ((t.status = "completed" ∧
           ∀ u ∈ db, u.file_hash = h → u.status = "completed" →
             u.completed_at.getD 0 ≤ t.completed_at.getD 0) ∨
         ((∀ u ∈ db, ¬(u.file_hash = h ∧ u.status = "completed")) ∧
           ∀ u ∈ db, u.file_hash = h → u.created_at ≤ t.created_at))) ∧
      (∀ (t : Task) (fresh : String), t ∈ db → t.file_hash = h →
        t.status = "running" → (∀ u ∈ db, u.file_hash = h → u = t) →
        analyze_decision db h fresh =
          { task_id := t.task_id, reused := true }) := by
  intro db h hne
  refine ⟨?_, ?_, ?_⟩
  · -- none ↔ no task carries the hash
    unfold find_by_file_hash
    simp only [hne, if_false]
    constructor
    · intro hn u hu hh
      cases hc : firstMaxBy (fun t => t.completed_at.getD 0)
          (db.filter fun t => t.file_hash = h ∧ t.status = "completed") with
      | some t => rw [hc] at hn; cases hn
      | none =>
        rw [hc] at hn
        have : (db.filter fun t => t.file_hash = h) = [] := firstMaxBy_none.mp hn
        have : u ∈ (db.filter fun t => t.file_hash = h) := by
          simp [List.mem_filter, hu, hh]
        simp_all
    · intro hall
      have h1 : (db.filter fun t => t.file_hash = h ∧ t.status = "completed") = [] := by
        rw [List.filter_eq_nil_iff]
        intro u hu
        simp only [decide_eq_true_eq, not_and]
        intro hh
        exact absurd hh (hall u hu)
      have h2 : (db.filter fun t => t.file_hash = h) = [] := by
        rw [List.filter_eq_nil_iff]
        intro u hu
        simp only [decide_eq_true_eq]
        exact hall u hu
      rw [h1, h2]
      simp [firstMaxBy]
  · -- characterisation of a returned task
    intro t ht
    unfold find_by_file_hash at ht
    simp only [hne, if_false] at ht
    cases hc : firstMaxBy (fun t => t.completed_at.getD 0)
        (db.filter fun t => t.file_hash = h ∧ t.status = "completed") with
    | some c =>
      rw [hc] at ht
      cases ht
      have hmem := firstMaxBy_mem hc
      rw [List.mem_filter] at hmem
      obtain ⟨hmemdb, hprop⟩ := hmem
      simp only [decide_eq_true_eq] at hprop
      refine ⟨hmemdb, hprop.1, Or.inl ⟨hprop.2, ?_⟩⟩
      intro u hu hh hs
      exact firstMaxBy_max hc u (by simp [List.mem_filter, hu, hh, hs])
    | none =>
      rw [hc] at ht
      have hempty : (db.filter fun t => t.file_hash = h ∧ t.status = "completed") = [] :=
        firstMaxBy_none.mp hc
      have hmem := firstMaxBy_mem ht
      rw [List.mem_filter] at hmem
      obtain ⟨hmemdb, hprop⟩ := hmem
      simp only [decide_eq_true_eq] at hprop
      refine ⟨hmemdb, hprop, Or.inr ⟨?_, ?_⟩⟩
      · intro u hu hand
        have hin : u ∈ (db.filter fun t => t.file_hash = h ∧ t.status = "completed") := by
          simp [List.mem_filter, hu, hand.1, hand.2]
        rw [hempty] at hin
        cases hin
      · intro u hu hh
        exact firstMaxBy_max ht u (by simp [List.mem_filter, hu, hh])
  · -- the running-task reuse scenario
    intro t fresh htdb hth hrun huniq
    have hfind : find_by_file_hash db h = some t := by
      unfold find_by_file_hash
      simp only [hne, if_false]
      have h1 : (db.filter fun u => u.file_hash = h ∧ u.status = "completed") = [] := by
        rw [List.filter_eq_nil_iff]
        intro u hu
        simp only [decide_eq_true_eq, not_and]
        intro hh hs
        have hut := huniq u hu hh
        rw [hut, hrun] at hs
        exact absurd hs (by decide)
      rw [h1]
      have h2ne : (db.filter fun u => u.file_hash = h) ≠ [] := by
        intro hemp
        have : t ∈ (db.filter fun u => u.file_hash = h) := by
          simp [List.mem_filter, htdb, hth]
        simp_all
      have h2all : ∀ u ∈ (db.filter fun v => v.file_hash = h), u = t := by
        intro u hu
        rw [List.mem_filter] at hu
        simp only [decide_eq_true_eq] at hu
        exact huniq u hu.1 hu.2
      simp [firstMaxBy, firstMaxBy_all_eq h2ne h2all]
    unfold analyze_decision
    rw [hfind]
    simp [hrun]

/-- Witness for C1: a table holding a single running task with hash
`"h"`; a second upload of the same content reuses its id. -/
theorem find_by_file_hash_idempotency_witness :
    analyze_decision
      [{ task_id := "T1", file_hash := "h", status := "running",
         created_at := 1, completed_at := none }] "h" "T2" =
      { task_id := "T1", reused := true } :=
  (find_by_file_hash_idempotency
      [{ task_id := "T1", file_hash := "h", status := "running",
         created_at := 1, completed_at := none }] "h" (by decide)).2.2
    { task_id := "T1", file_hash := "h", status := "running",
      created_at := 1, completed_at := none } "T2"
    (by simp) (by decide) (by decide) (by intro u hu _; simpa using hu)

/- ===================================================================
   clause_aggregator.py – clause_aggregator_node
   =================================================================== -/

/-- A clause, restricted to the fields read or written by
`clause_aggregator_node` (`section_id`, `matrix_id`, `original_text`,
`section_title`); the remaining `ClauseItem` payload fields are carried
through untouched by the aggregator and are omitted. -/
structure ClauseItem where
  matrix_id : String
  original_text : String
  section_id : String
  section_title : String
  deriving DecidableEq, Repr

/-- Python whitespace for `str.strip` (the ASCII whitespace characters). -/
def isPyStripSpace (c : Char) : Bool :=
  c = ' ' || c = '\t' || c = '\n' || c = '\r' ||
  c.toNat = 0xB || c.toNat = 0xC

/-- Python `str.strip()`: drop leading and trailing whitespace. -/
def pyStrip (s : String) : String :=
  ⟨((s.toList.dropWhile isPyStripSpace).reverse.dropWhile isPyStripSpace).reverse⟩

/-- Python string `<`: code-point lexicographic comparison. -/
def charListLt : List Char → List Char → Bool
  | [], [] => false
  | [], _ :: _ => true
  | _ :: _, [] => false
  | c :: cs, d :: ds => if c < d then true else if d < c then false else charListLt cs ds

theorem charListLt_irrefl : ∀ a : List Char, charListLt a a = false := by
  intro a
  induction a with
  | nil => rfl
  | cons c cs ih => simp [charListLt, ih]

theorem charListLt_trichotomy :
    ∀ a b : List Char, charListLt a b = true ∨ a = b ∨ charListLt b a = true := by
  intro a
  induction a with
  | nil =>
    intro b
    cases b with
    | nil => exact Or.inr (Or.inl rfl)
    | cons d ds => exact Or.inl rfl
  | cons c cs ih =>
    intro b
    cases b with
    | nil => exact Or.inr (Or.inr rfl)
    | cons d ds =>
      rcases lt_trichotomy c d with hcd | hcd | hcd
      · exact Or.inl (by simp [charListLt, hcd])
      · subst hcd
        rcases ih ds with h | h | h
        · exact Or.inl (by simp [charListLt, h])
        · exact Or.inr (Or.inl (by rw [h]))
        · exact Or.inr (Or.inr (by simp [charListLt, h]))
      · exact Or.inr (Or.inr (by simp [charListLt, hcd]))

theorem charListLt_trans :
    ∀ a b c : List Char,
      charListLt a b = true → charListLt b c = true → charListLt a c = true := by
  intro a
  induction a with
  | nil =>
    intro b c hab hbc
    cases b with
    | nil => cases hab
    | cons y ys =>
      cases c with
      | nil => cases hbc
      | cons z zs => rfl
  | cons x xs ih =>
    intro b c hab hbc
    cases b with
    | nil => cases hab
    | cons y ys =>
      cases c with
      | nil => cases hbc
      | cons z zs =>
        simp only [charListLt] at hab hbc ⊢
        by_cases hxy : x < y
        · by_cases hyz : y < z
          · simp [lt_trans hxy hyz]
          · by_cases hzy : z < y
            · simp [hyz, hzy] at hbc
            · have hyzeq : y = z := le_antisymm (le_of_not_lt hzy) (le_of_not_lt hyz)
              simp [hyzeq ▸ hxy]
        · by_cases hyx : y < x
          · simp [hxy, hyx] at hab
          · have hxyeq : x = y := le_antisymm (le_of_not_lt hyx) (le_of_not_lt hxy)
            subst hxyeq
            simp [hxy] at hab
            by_cases hyz : x < z
            · simp [hyz]
            · by_cases hzy : z < x
              · simp [hyz, hzy] at hbc
              · simp [hyz, hzy] at hbc ⊢
                exact ih ys zs hab hbc

/-- The sort key order used by `_sort_clauses`: Python tuple comparison on
`(section_id, matrix_id)` (code-point lexicographic `<`-or-`=` on each
component, the second component deciding ties). -/
def clauseKeyLe (a b : ClauseItem) : Prop :=
  (charListLt a.section_id.toList b.section_id.toList ||
    (a.section_id == b.section_id &&
      (charListLt a.matrix_id.toList b.matrix_id.toList ||
        a.matrix_id == b.matrix_id))) = true

instance : DecidableRel clauseKeyLe := fun a b => by
  unfold clauseKeyLe; infer_instance

instance : IsTotal ClauseItem clauseKeyLe where
  total a b := by
    unfold clauseKeyLe
    simp only [Bool.or_eq_true, Bool.and_eq_true, beq_iff_eq]
    rcases charListLt_trichotomy a.section_id.toList b.section_id.toList with h | h | h
    · exact Or.inl (Or.inl h)
    · have hs : a.section_id = b.section_id := String.toList_inj.mp h
      rcases charListLt_trichotomy a.matrix_id.toList b.matrix_id.toList with h2 | h2 | h2
      · exact Or.inl (Or.inr ⟨hs, Or.inl h2⟩)
      · have hm : a.matrix_id = b.matrix_id := String.toList_inj.mp h2
        exact Or.inl (Or.inr ⟨hs, Or.inr hm⟩)
      · exact Or.inr (Or.inr ⟨hs.symm, Or.inl h2⟩)
    · exact Or.inr (Or.inl h)

instance : IsTrans ClauseItem clauseKeyLe where
  trans a b c hab hbc := by
    unfold clauseKeyLe at *
    simp only [Bool.or_eq_true, Bool.and_eq_true, beq_iff_eq] at hab hbc ⊢
    rcases hab with h1 | ⟨h1, h1m⟩ <;> rcases hbc with h2 | ⟨h2, h2m⟩
    · exact Or.inl (charListLt_trans _ _ _ h1 h2)
    · exact Or.inl (h2 ▸ h1)
    · exact Or.inl (h1 ▸ h2)
    · refine Or.inr ⟨h1.trans h2, ?_⟩
      rcases h1m with h1m | h1m <;> rcases h2m with h2m | h2m
      · exact Or.inl (charListLt_trans _ _ _ h1m h2m)
      · exact Or.inl (h2m ▸ h1m)
      · exact Or.inl (h1m ▸ h2m)
      · exact Or.inr (h1m.trans h2m)

/-- `_sort_clauses`: Python `sorted(clauses, key=(section_id, matrix_id))`,
i.e. the stable ascending sort by that key (modelled by the stable
`List.insertionSort`). -/
def _sort_clauses (clauses : List ClauseItem) : List ClauseItem :=
  List.insertionSort clauseKeyLe clauses

/-- `_normalize_clauses`: strip leading/trailing whitespace from
`original_text` and `section_title` of every clause. -/
def _normalize_clauses (clauses : List ClauseItem) : List ClauseItem :=
  clauses.map fun c =>
    { c with original_text := pyStrip c.original_text,
             section_title := pyStrip c.section_title }

/-- `clause_aggregator_node` from `app/components/clause_aggregator.py`:
collect the accumulated clauses, sort by `(section_id, matrix_id)`, strip
whitespace; no deduplication.  An empty clause list short-circuits to an
empty `final_matrix`. -/
def clause_aggregator_node (clauses : List ClauseItem) : List ClauseItem :=
  if clauses.isEmpty then []
  else _normalize_clauses (_sort_clauses clauses)

/-- The whitespace-stripping applied to a single clause. -/
def stripClause (c : ClauseItem) : ClauseItem :=
  { c with original_text := pyStrip c.original_text,
           section_title := pyStrip c.section_title }

theorem stripClause_key (c : ClauseItem) :
    (stripClause c).section_id = c.section_id ∧
    (stripClause c).matrix_id = c.matrix_id := ⟨rfl, rfl⟩

/-- C4: `final_matrix` is exactly the input clauses (as a permutation of
the stripped clauses – no deduplication), sorted by
`(section_id, matrix_id)`, with `original_text` and `section_title`
stripped; in the concrete two-clause scenario with identical
`original_text` and section ids `"1"` and `"2"`, both clauses survive and
the section-`"1"` clause sorts strictly first. -/
theorem clause_aggregator_node_spec :
    (∀ clauses : List ClauseItem,
      List.Perm (clause_aggregator_node clauses) (clauses.map stripClause)) ∧
    (∀ clauses : List ClauseItem,
      (clause_aggregator_node clauses).Sorted clauseKeyLe) ∧
    (clause_aggregator_node
        [{ matrix_id := "2-CLS-001", original_text := "  duplicate text ",
           section_id := "2", section_title := " B " },
         { matrix_id := "1-CLS-001", original_text := "  duplicate text ",
           section_id := "1", section_title := " A " }] =
      [{ matrix_id := "1-CLS-001", original_text := "duplicate text",
         section_id := "1", section_title := "A" },
       { matrix_id := "2-CLS-001", original_text := "duplicate text",
         section_id := "2", section_title := "B" }]) := by
  refine ⟨?_, ?_, ?_⟩
  · intro clauses
    by_cases hemp : clauses.isEmpty
    · rw [List.isEmpty_iff] at hemp
      simp [clause_aggregator_node, hemp]
    · unfold clause_aggregator_node
      rw [if_neg hemp]
      have hperm : List.Perm (_sort_clauses clauses) clauses :=
        List.perm_insertionSort clauseKeyLe clauses
      have heq : _normalize_clauses (_sort_clauses clauses)
          = (_sort_clauses clauses).map stripClause := rfl
      rw [heq]
      exact hperm.map stripClause
  · intro clauses
    by_cases hemp : clauses.isEmpty
    · rw [List.isEmpty_iff] at hemp
      simp [clause_aggregator_node, hemp, List.Sorted]
    · unfold clause_aggregator_node
      rw [if_neg hemp]
      have hsorted : (_sort_clauses clauses).Sorted clauseKeyLe :=
        List.sorted_insertionSort clauseKeyLe clauses
      have : _normalize_clauses (_sort_clauses clauses)
          = (_sort_clauses clauses).map stripClause := rfl
      rw [this, List.Sorted]
      rw [List.pairwise_map]
      refine hsorted.imp ?_
      intro a b hab
      unfold clauseKeyLe at *
      simpa [stripClause] using hab
  · decide

/- ===================================================================
   pageindex/utils.py – ChatGPT_API and ChatGPT_API_with_finish_reason
   =================================================================== -/

/-- Outcome of one `client.chat.completions.create` call: success (with
whether `finish_reason == "length"`), or an exception whose lowered
message does / does not carry a 429/rate/quota signature. -/
inductive CallOutcome where
  | ok (content : String) (finishLen : Bool)
  | err (rate : Bool)
  deriving DecidableEq

/-- Result of `ChatGPT_API`: a returned string (possibly the sentinel
`"Error"`), or a re-raised rate-limit exception. -/
inductive ApiResult where
  | returned (s : String)
  | raised
  deriving DecidableEq, Repr

/-- Result of `ChatGPT_API_with_finish_reason`: a returned
`(content, finish_reason)` pair, or a re-raised rate-limit exception. -/
inductive ApiResultFR where
  | returnedFR (content reason : String)
  | raisedFR
  deriving DecidableEq, Repr

/-- The inner `for i in range(max_retries)` loop of `ChatGPT_API` for one
model.  `outs j` is the outcome of attempt `j` against this model,
`isLast` tells whether the model is the last of `all_models`, `j` is the
current attempt index, `fuel` the number of attempts remaining (starting
at `max_retries = 10`), `sl` the number of `time.sleep(1)` calls so far.
`some r` means return/raise out of the whole function, `none` means break
to the next model. -/
def modelLoop (outs : Nat → CallOutcome) (isLast : Bool) :
    Nat → Nat → Nat → Option ApiResult × Nat
  | _, 0, sl => (none, sl)
  | j, fuel + 1, sl =>
    match outs j with
    | .ok s _ => (some (.returned s), sl)
    | .err true => if isLast then (some .raised, sl) else (none, sl)
    | .err false =>
      if fuel > 0 then modelLoop outs isLast (j + 1) fuel (sl + 1)
      else if isLast then (some (.returned "Error"), sl) else (none, sl)

/-- The outer `for model_idx, current_model in enumerate(all_models)` loop
of `ChatGPT_API`.  `outs mi j` is the outcome of attempt `j` against the
model at index `mi`. -/
def apiLoop (outs : Nat → Nat → CallOutcome) : Nat → List String → Nat → ApiResult × Nat
  | _, [], sl => (.returned "Error", sl)
  | mi, _m :: rest, sl =>
    match modelLoop (outs mi) rest.isEmpty 0 10 sl with
    | (some r, sl2) => (r, sl2)
    | (none, sl2) => apiLoop outs (mi + 1) rest sl2

/-- `ChatGPT_API` from `pageindex/utils.py`:
`all_models = [model] + _FALLBACK_MODEL_LIST`, `max_retries = 10`.
Returns the result together with the total number of 1-second pauses. -/
def ChatGPT_API (model : String) (fallback_models : List String)
    (outs : Nat → Nat → CallOutcome) : ApiResult × Nat :=
  apiLoop outs 0 (model :: fallback_models) 0

/-- Inner retry loop of `ChatGPT_API_with_finish_reason` (identical
control flow; the success payload carries the finish reason). -/
def modelLoopFR (outs : Nat → CallOutcome) (isLast : Bool) :
    Nat → Nat → Nat → Option ApiResultFR × Nat
  | _, 0, sl => (none, sl)
  | j, fuel + 1, sl =>
    match outs j with
    | .ok s fl =>
      (some (.returnedFR s (if fl then "max_output_reached" else "finished")), sl)
    | .err true => if isLast then (some .raisedFR, sl) else (none, sl)
    | .err false =>
      if fuel > 0 then modelLoopFR outs isLast (j + 1) fuel (sl + 1)
      else if isLast then (some (.returnedFR "Error" "error"), sl) else (none, sl)

/-- Outer model loop of `ChatGPT_API_with_finish_reason`. -/
def apiLoopFR (outs : Nat → Nat → CallOutcome) : Nat → List String → Nat → ApiResultFR × Nat
  | _, [], sl => (.returnedFR "Error" "error", sl)
  | mi, _m :: rest, sl =>
    match modelLoopFR (outs mi) rest.isEmpty 0 10 sl with
    | (some r, sl2) => (r, sl2)
    | (none, sl2) => apiLoopFR outs (mi + 1) rest sl2

/-- `ChatGPT_API_with_finish_reason` from `pageindex/utils.py`. -/
def ChatGPT_API_with_finish_reason (model : String) (fallback_models : List String)
    (outs : Nat → Nat → CallOutcome) : ApiResultFR × Nat :=
  apiLoopFR outs 0 (model :: fallback_models) 0

theorem modelLoop_pre (outs : Nat → CallOutcome) (isLast : Bool) :
    ∀ (n j fuel sl : Nat), (∀ i < n, outs (j + i) = .err false) → n < fuel →
      modelLoop outs isLast j fuel sl = modelLoop outs isLast (j + n) (fuel - n) (sl + n) := by
  intro n
  induction n with
  | zero => intro j fuel sl _ _; simp
  | succ n ih =>
    intro j fuel sl hpre hn
    obtain ⟨fuel2, rfl⟩ : ∃ fuel2, fuel = fuel2 + 1 := ⟨fuel - 1, by omega⟩
    have h0 : outs j = .err false := by simpa using hpre 0 (by omega)
    have hrec : modelLoop outs isLast j (fuel2 + 1) sl
        = modelLoop outs isLast (j + 1) fuel2 (sl + 1) := by
      rw [modelLoop, h0]
      simp only [if_pos (by omega : fuel2 > 0)]
    rw [hrec, ih (j + 1) fuel2 (sl + 1) (fun i hi => by
      have := hpre (i + 1) (by omega)
      simpa [Nat.add_assoc, Nat.add_comm 1 i] using this) (by omega)]
    have e1 : j + 1 + n = j + (n + 1) := by omega
    have e2 : fuel2 - n = fuel2 + 1 - (n + 1) := by omega
    have e3 : sl + 1 + n = sl + (n + 1) := by omega
    rw [e1, e2, e3]

theorem modelLoopFR_pre (outs : Nat → CallOutcome) (isLast : Bool) :
    ∀ (n j fuel sl : Nat), (∀ i < n, outs (j + i) = .err false) → n < fuel →
      modelLoopFR outs isLast j fuel sl = modelLoopFR outs isLast (j + n) (fuel - n) (sl + n) := by
  intro n
  induction n with
  | zero => intro j fuel sl _ _; simp
  | succ n ih =>
    intro j fuel sl hpre hn
    obtain ⟨fuel2, rfl⟩ : ∃ fuel2, fuel = fuel2 + 1 := ⟨fuel - 1, by omega⟩
    have h0 : outs j = .err false := by simpa using hpre 0 (by omega)
    have hrec : modelLoopFR outs isLast j (fuel2 + 1) sl
        = modelLoopFR outs isLast (j + 1) fuel2 (sl + 1) := by
      rw [modelLoopFR, h0]
      simp only [if_pos (by omega : fuel2 > 0)]
    rw [hrec, ih (j + 1) fuel2 (sl + 1) (fun i hi => by
      have := hpre (i + 1) (by omega)
      simpa [Nat.add_assoc, Nat.add_comm 1 i] using this) (by omega)]
    have e1 : j + 1 + n = j + (n + 1) := by omega
    have e2 : fuel2 - n = fuel2 + 1 - (n + 1) := by omega
    have e3 : sl + 1 + n = sl + (n + 1) := by omega
    rw [e1, e2, e3]

theorem modelLoop_rate (outs : Nat → CallOutcome) (isLast : Bool)
    (j sl : Nat) (hj : j < 10) (hpre : ∀ i < j, outs i = .err false)
    (hrate : outs j = .err true) :
    modelLoop outs isLast 0 10 sl =
      (if isLast then (some ApiResult.raised, sl + j) else (none, sl + j)) := by
  have := modelLoop_pre outs isLast j 0 10 sl (by simpa using hpre) hj
  simp only [Nat.zero_add] at this
  rw [this]
  obtain ⟨fuel2, hf⟩ : ∃ fuel2, 10 - j = fuel2 + 1 := ⟨9 - j, by omega⟩
  rw [hf, modelLoop, hrate]

theorem modelLoopFR_rate (outs : Nat → CallOutcome) (isLast : Bool)
    (j sl : Nat) (hj : j < 10) (hpre : ∀ i < j, outs i = .err false)
    (hrate : outs j = .err true) :
    modelLoopFR outs isLast 0 10 sl =
      (if isLast then (some ApiResultFR.raisedFR, sl + j) else (none, sl + j)) := by
  have := modelLoopFR_pre outs isLast j 0 10 sl (by simpa using hpre) hj
  simp only [Nat.zero_add] at this
  rw [this]
  obtain ⟨fuel2, hf⟩ : ∃ fuel2, 10 - j = fuel2 + 1 := ⟨9 - j, by omega⟩
  rw [hf, modelLoopFR, hrate]

theorem modelLoop_exhaust (outs : Nat → CallOutcome) (isLast : Bool) (sl : Nat)
    (hall : ∀ i < 10, outs i = .err false) :
    modelLoop outs isLast 0 10 sl =
      (if isLast then (some (ApiResult.returned "Error"), sl + 9) else (none, sl + 9)) := by
  have := modelLoop_pre outs isLast 9 0 10 sl
    (by intro i hi; simpa using hall i (by omega)) (by omega)
  simp only [Nat.zero_add] at this
  rw [this]
  have h9 : outs 9 = .err false := hall 9 (by omega)
  show modelLoop outs isLast 9 1 (sl + 9) = _
  rw [modelLoop, h9]
  by_cases hl : isLast = true <;> simp [hl]

theorem modelLoopFR_exhaust (outs : Nat → CallOutcome) (isLast : Bool) (sl : Nat)
    (hall : ∀ i < 10, outs i = .err false) :
    modelLoopFR outs isLast 0 10 sl =
      (if isLast then (some (ApiResultFR.returnedFR "Error" "error"), sl + 9)
       else (none, sl + 9)) := by
  have := modelLoopFR_pre outs isLast 9 0 10 sl
    (by intro i hi; simpa using hall i (by omega)) (by omega)
  simp only [Nat.zero_add] at this
  rw [this]
  have h9 : outs 9 = .err false := hall 9 (by omega)
  show modelLoopFR outs isLast 9 1 (sl + 9) = _
  rw [modelLoopFR, h9]
  by_cases hl : isLast = true <;> simp [hl]

theorem apiLoop_all_fail (outs : Nat → Nat → CallOutcome)
    (hall : ∀ mi i, outs mi i = .err false) :
    ∀ (models : List String) (mi sl : Nat),
      apiLoop outs mi models sl = (.returned "Error", sl + 9 * models.length) := by
  intro models
  induction models with
  | nil => intro mi sl; simp [apiLoop]
  | cons m rest ih =>
    intro mi sl
    rw [apiLoop, modelLoop_exhaust (outs mi) rest.isEmpty sl (fun i _ => hall mi i)]
    cases rest with
    | nil => simp
    | cons m2 rest2 =>
      simp only [List.isEmpty_cons, if_neg (by decide : ¬ (false = true))]
      rw [ih (mi + 1) (sl + 9)]
      congr 1
      simp [List.length_cons]
      ring

theorem apiLoopFR_all_fail (outs : Nat → Nat → CallOutcome)
    (hall : ∀ mi i, outs mi i = .err false) :
    ∀ (models : List String) (mi sl : Nat),
      apiLoopFR outs mi models sl = (.returnedFR "Error" "error", sl + 9 * models.length) := by
  intro models
  induction models with
  | nil => intro mi sl; simp [apiLoopFR]
  | cons m rest ih =>
    intro mi sl
    rw [apiLoopFR, modelLoopFR_exhaust (outs mi) rest.isEmpty sl (fun i _ => hall mi i)]
    cases rest with
    | nil => simp
    | cons m2 rest2 =>
      simp only [List.isEmpty_cons, if_neg (by decide : ¬ (false = true))]
      rw [ih (mi + 1) (sl + 9)]
      congr 1
      simp [List.length_cons]
      ring

/-- C3: in both chat wrappers, a rate-limit exception (at attempt `j`,
after `j` non-rate failures that each slept 1 second) immediately
advances to the next fallback model without consuming further attempts or
sleeps on the current model, or re-raises when the current model is the
last one; a non-rate exception is retried on the same model up to 10
attempts in total with a 1-second pause between consecutive attempts
(9 pauses), after which the loop advances; when every model fails with
non-rate errors the sentinel `"Error"` (resp. `("Error", "error")`) is
returned. -/
theorem chat_api_fallback_spec :
    (∀ (outs : Nat → Nat → CallOutcome) (mi sl j : Nat) (m : String)
        (rest : List String), j < 10 →
      (∀ i < j, outs mi i = .err false) → outs mi j = .err true →
      (rest ≠ [] → apiLoop outs mi (m :: rest) sl = apiLoop outs (mi + 1) rest (sl + j)) ∧
      (rest = [] → apiLoop outs mi (m :: rest) sl = (.raised, sl + j))) ∧
    (∀ (outs : Nat → Nat → CallOutcome) (mi sl : Nat) (m : String)
        (rest : List String),
      (∀ i < 10, outs mi i = .err false) →
      (rest ≠ [] → apiLoop outs mi (m :: rest) sl = apiLoop outs (mi + 1) rest (sl + 9)) ∧
      (rest = [] → apiLoop outs mi (m :: rest) sl = (.returned "Error", sl + 9))) ∧
    (∀ (outs : Nat → Nat → CallOutcome) (model : String) (fallback : List String),
      (∀ mi i, outs mi i = .err false) →
      ChatGPT_API model fallback outs =
        (.returned "Error", 9 * (fallback.length + 1))) ∧
    (∀ (outs : Nat → Nat → CallOutcome) (mi sl j : Nat) (m : String)
        (rest : List String), j < 10 →
      (∀ i < j, outs mi i = .err false) → outs mi j = .err true →
      (rest ≠ [] → apiLoopFR outs mi (m :: rest) sl = apiLoopFR outs (mi + 1) rest (sl + j)) ∧
      (rest = [] → apiLoopFR outs mi (m :: rest) sl = (.raisedFR, sl + j))) ∧
    (∀ (outs : Nat → Nat → CallOutcome) (mi sl : Nat) (m : String)
        (rest : List String),
      (∀ i < 10, outs mi i = .err false) →
      (rest ≠ [] → apiLoopFR outs mi (m :: rest) sl = apiLoopFR outs (mi + 1) rest (sl + 9)) ∧
      (rest = [] → apiLoopFR outs mi (m :: rest) sl = (.returnedFR "Error" "error", sl + 9))) ∧
    (∀ (outs : Nat → Nat → CallOutcome) (model : String) (fallback : List String),
      (∀ mi i, outs mi i = .err false) →
      ChatGPT_API_with_finish_reason model fallback outs =
        (.returnedFR "Error" "error", 9 * (fallback.length + 1))) := by
  refine ⟨?_, ?_, ?_, ?_, ?_, ?_⟩
  · intro outs mi sl j m rest hj hpre hrate
    constructor
    · intro hne
      rw [apiLoop, modelLoop_rate (outs mi) rest.isEmpty j sl hj hpre hrate]
      rw [if_neg (by simpa [List.isEmpty_iff] using hne)]
    · intro hnil
      subst hnil
      rw [apiLoop, modelLoop_rate (outs mi) ([] : List String).isEmpty j sl hj hpre hrate]
      simp
  · intro outs mi sl m rest hall
    constructor
    · intro hne
      rw [apiLoop, modelLoop_exhaust (outs mi) rest.isEmpty sl hall]
      rw [if_neg (by simpa [List.isEmpty_iff] using hne)]
    · intro hnil
      subst hnil
      rw [apiLoop, modelLoop_exhaust (outs mi) ([] : List String).isEmpty sl hall]
      simp
  · intro outs model fallback hall
    rw [ChatGPT_API, apiLoop_all_fail outs hall]
    simp [Nat.mul_comm]
  · intro outs mi sl j m rest hj hpre hrate
    constructor
    · intro hne
      rw [apiLoopFR, modelLoopFR_rate (outs mi) rest.isEmpty j sl hj hpre hrate]
      rw [if_neg (by simpa [List.isEmpty_iff] using hne)]
    · intro hnil
      subst hnil
      rw [apiLoopFR, modelLoopFR_rate (outs mi) ([] : List String).isEmpty j sl hj hpre hrate]
      simp
  · intro outs mi sl m rest hall
    constructor
    · intro hne
      rw [apiLoopFR, modelLoopFR_exhaust (outs mi) rest.isEmpty sl hall]
      rw [if_neg (by simpa [List.isEmpty_iff] using hne)]
    · intro hnil
      subst hnil
      rw [apiLoopFR, modelLoopFR_exhaust (outs mi) ([] : List String).isEmpty sl hall]
      simp
  · intro outs model fallback hall
    rw [ChatGPT_API_with_finish_reason, apiLoopFR_all_fail outs hall]
    simp [Nat.mul_comm]

/-- Witness for C3: with every call failing on a non-rate error, the
primary model plus one fallback return the sentinel after 18 pauses. -/
theorem chat_api_fallback_spec_witness :
    ChatGPT_API "gpt-4o" ["deepseek-chat"] (fun _ _ => CallOutcome.err false) =
      (ApiResult.returned "Error", 18) :=
  chat_api_fallback_spec.2.2.1 (fun _ _ => CallOutcome.err false)
    "gpt-4o" ["deepseek-chat"] (fun _ _ => rfl)

/- ===================================================================
   section_slicer.py – TitleMatcher
   Text is modelled as `List Char` (Unicode code points).
   =================================================================== -/

/-- Python `str.lower()`, modelled as ASCII lowercasing (`Char.toLower`);
no non-ASCII cased letter occurs in the checked inputs, and any such
letter is removed by the keep-filter of `normalize_title` anyway. -/
def pyLower (c : Char) : Char := Char.toLower c

/-- Python `\s` (whitespace removed by `re.sub(r"\s+", "")`): the ASCII
whitespace characters plus the common Unicode spaces NBSP and IDEOGRAPHIC
SPACE.  (Any further Unicode space character is not kept by the
keep-filter of `normalize_title` either.) -/
def isPySpace (c : Char) : Bool :=
  c = ' ' || c = '\t' || c = '\n' || c = '\r' ||
  c.toNat = 0xB || c.toNat = 0xC || c.toNat = 0xA0 || c.toNat = 0x3000

/-- The character class kept by `normalize_title`:
`[0-9a-z一-鿿§]`. -/
def isKeptChar (c : Char) : Bool :=
  (0x30 ≤ c.toNat && c.toNat ≤ 0x39) || (0x61 ≤ c.toNat && c.toNat ≤ 0x7A) ||
  (0x4E00 ≤ c.toNat && c.toNat ≤ 0x9FFF) || c.toNat = 0xA7

/-- The CJK numerals `一二三四五六七八九十`. -/
def isCjkNumeral (c : Char) : Bool :=
  c = '一' || c = '二' || c = '三' || c = '四' || c = '五' ||
  c = '六' || c = '七' || c = '八' || c = '九' || c = '十'

/-- The class `[0-9一二三四五六七八九十]` of the numbering regexes. -/
def isNumeralChar (c : Char) : Bool := c.isDigit || isCjkNumeral c

/-- The class `[章节条款\.]` trailing the first numbering regex. -/
def isSuffixMarker (c : Char) : Bool :=
  c = '章' || c = '节' || c = '条' || c = '款' || c = '.'

def isParenOpen (c : Char) : Bool := c = '（' || c = '('

def isParenClose (c : Char) : Bool := c = '）' || c = ')'

def startsWithNumeral : List Char → Bool
  | [] => false
  | c :: _ => isNumeralChar c

/-- `re.sub(r"^(第?[0-9一二三四五六七八九十]+[章节条款\.]*)", "", s)`:
an anchored match needs the optional `第` followed by at least one
numeral (or a leading numeral), then consumes the maximal numeral run and
the maximal suffix-marker run. -/
def stripNum1 (l : List Char) : List Char :=
  match l with
  | [] => []
  | c :: rest =>
    if c = '第' then
      if startsWithNumeral rest then (rest.dropWhile isNumeralChar).dropWhile isSuffixMarker
      else l
    else if isNumeralChar c then (l.dropWhile isNumeralChar).dropWhile isSuffixMarker
    else l

/-- Drop a single leading closing parenthesis (the `[）)]?` tail). -/
def dropOneClose (l : List Char) : List Char :=
  match l with
  | c :: rest => if isParenClose c then rest else l
  | [] => []

/-- `re.sub(r"^[（(]?[一二三四五六七八九十0-9]+[）)]?", "", s)`. -/
def stripNum2 (l : List Char) : List Char :=
  match l with
  | [] => []
  | c :: rest =>
    if isParenOpen c then
      if startsWithNumeral rest then dropOneClose (rest.dropWhile isNumeralChar)
      else l
    else if isNumeralChar c then dropOneClose (l.dropWhile isNumeralChar)
    else l

/-- `re.sub(r"^[0-9]+[\.、]", "", s)`: at least one ASCII digit followed
by one of `.`/`、`. -/
def stripNum3 (l : List Char) : List Char :=
  let ds := l.takeWhile Char.isDigit
  if ds.isEmpty then l
  else
    match l.drop ds.length with
    | c :: rest => if c = '.' || c = '、' then rest else l
    | [] => l

/-- `TitleMatcher.normalize_title`: lowercase → remove whitespace → keep
only `[0-9a-z一-鿿§]` → strip the three numbering-prefix
patterns in order.  (The empty-title guard is subsumed: every step maps
`[]` to `[]`.) -/
def normalize_title (title : List Char) : List Char :=
  stripNum3 (stripNum2 (stripNum1
    (((title.map pyLower).filter (fun c => !isPySpace c)).filter isKeptChar)))

/-- `TitleMatcher.normalize_title_light`: lowercase and remove whitespace
only. -/
def normalize_title_light (title : List Char) : List Char :=
  (title.map pyLower).filter (fun c => !isPySpace c)

/-- Length of the common run of equal characters at the heads. -/
def runLen : List Char → List Char → Nat
  | c :: cs, d :: ds => if c = d then runLen cs ds + 1 else 0
  | _, _ => 0

/-- `difflib.SequenceMatcher.find_longest_match` over the full ranges:
the longest matching block `(i, j, k)` with `a[i:i+k] == b[j:j+k]`,
favouring the smallest `i`, then the smallest `j` (no junk heuristic:
the autojunk threshold of 200 characters is never reached here). -/
def bestMatch (a b : List Char) : Nat × Nat × Nat :=
  (((List.range a.length).map
      (fun i => (List.range b.length).map (fun j => (i, j)))).flatten).foldl
    (fun best p =>
      let k := runLen (a.drop p.1) (b.drop p.2)
      if k > best.2.2 then (p.1, p.2, k) else best)
    (0, 0, 0)

/-- Total size of the matching blocks of `SequenceMatcher`
(`get_matching_blocks`): recursively take the longest matching block and
recurse on the parts left and right of it.  `fuel` bounds the recursion
depth; `a.length + 1` always suffices since every recursive call strictly
shrinks `a`. -/
def matchingTotalF : Nat → List Char → List Char → Nat
  | 0, _, _ => 0
  | fuel + 1, a, b =>
    let m := bestMatch a b
    if m.2.2 = 0 then 0
    else matchingTotalF fuel (a.take m.1) (b.take m.2.1) + m.2.2 +
         matchingTotalF fuel (a.drop (m.1 + m.2.2)) (b.drop (m.2.1 + m.2.2))

def matchingTotal (a b : List Char) : Nat := matchingTotalF (a.length + 1) a b

/-- `SequenceMatcher.ratio()`: `2*M / (len(a)+len(b))` (and `1.0` when
both are empty). -/
def smRatio (a b : List Char) : ℚ :=
  if a.length + b.length = 0 then 1
  else mkRat (2 * (matchingTotal a b : Int)) (a.length + b.length)

/-- `TitleMatcher.calculate_similarity`. -/
def calculate_similarity (str1 str2 : List Char) : ℚ :=
  if str1 = [] ∨ str2 = [] then 0 else smRatio str1 str2

/-- The scan loop of `max_window_similarity`: window start `i` advances by
`step` while `i < max 1 (content.length - w + 1)`, keeping the best
similarity and breaking early once the freshly improved best reaches
`0.99`.  `fuel` bounds the iterations; `content.length + 1` suffices. -/
def mwsLoop (target content : List Char) (w step : Nat) :
    Nat → Nat → ℚ → ℚ
  | 0, _, best => best
  | fuel + 1, i, best =>
    if i < max 1 (content.length - w + 1) then
      let seg := (content.drop i).take w
      let s := calculate_similarity target seg
      if s > best then
        if s ≥ mkRat 99 100 then s
        else mwsLoop target content w step fuel (i + step) s
      else mwsLoop target content w step fuel (i + step) best
    else best

/-- `TitleMatcher.max_window_similarity`. -/
def max_window_similarity (target content : List Char)
    (window_extra : Nat := 10) : ℚ :=
  if target = [] ∨ content = [] then 0
  else
    let tlen := target.length
    let w := min content.length (tlen + window_extra)
    let step := if w < 80 then 1 else 2
    mwsLoop target content w step (content.length + 1) 0 0

/-- `needle` is a leading segment of `hay`. -/
def startsWithL : List Char → List Char → Bool
  | [], _ => true
  | _ :: _, [] => false
  | c :: n, d :: h => c == d && startsWithL n h

/-- Python substring containment `needle in hay`. -/
def strContains (hay needle : List Char) : Bool :=
  match hay with
  | [] => startsWithL needle []
  | _ :: t => startsWithL needle hay || strContains t needle

/-- `TitleMatcher.is_title_contained`: exact containment of the
normalized title, otherwise sliding-window similarity meeting the
threshold. -/
def is_title_contained (target_title content_text : List Char)
    (similarity_threshold : ℚ) : Bool :=
  let norm_target := normalize_title target_title
  let norm_content := normalize_title content_text
  if norm_target = [] || norm_content = [] then false
  else if strContains norm_content norm_target then true
  else decide (max_window_similarity norm_target norm_content 10 ≥ similarity_threshold)

/-- A MinerU content-list item, restricted to the keys read by the
matcher (`.get` defaults are the field defaults). -/
structure ContentItem where
  type : String := ""
  text : List Char := []
  list_items : List (List Char) := []
  image_caption : List (List Char) := []
  table_caption : List (List Char) := []
  page_idx : Int := -1
  deriving DecidableEq, Repr

/-- Python `" ".join(xs)`. -/
def joinSpace (xs : List (List Char)) : List Char :=
  match xs with
  | [] => []
  | x :: rest => rest.foldl (fun acc y => acc ++ ' ' :: y) x

/-- `TitleMatcher._extract_content_text`. -/
def extract_content_text (c : ContentItem) : List Char :=
  if c.type = "text" ∨ c.type = "header" then c.text
  else if c.type = "list" then
    (if c.list_items.isEmpty then [] else joinSpace c.list_items)
  else if c.type = "image" then
    (if c.image_caption.isEmpty then [] else joinSpace c.image_caption)
  else if c.type = "table" then
    (if c.table_caption.isEmpty then [] else joinSpace c.table_caption)
  else c.text

/-- The page-range filter of the scan loops: with a range present, an
item whose `page_idx` falls outside it is skipped. -/
def inPageRange (pr : Option (Int × Int)) (p : Int) : Bool :=
  match pr with
  | none => true
  | some (a, b) => decide (a ≤ p) && decide (p ≤ b)

/-- The scan loop of `find_title_in_content_list`, carrying the current
index. -/
def ftlAux (target : List Char) (pr : Option (Int × Int)) (thr : ℚ) :
    List ContentItem → Nat → Option Nat
  | [], _ => none
  | c :: rest, i =>
    if !(inPageRange pr c.page_idx) then ftlAux target pr thr rest (i + 1)
    else
      let ct := extract_content_text c
      if ct = [] then ftlAux target pr thr rest (i + 1)
      else if is_title_contained target ct thr then some i
      else ftlAux target pr thr rest (i + 1)

/-- `TitleMatcher.find_title_in_content_list`: scan the items from index
`max(0, start_from)` and return the first index whose text matches. -/
def find_title_in_content_list (target : List Char)
    (content_list : List ContentItem) (page_range : Option (Int × Int))
    (similarity_threshold : ℚ) (start_from : Nat) : Option Nat :=
  ftlAux target page_range similarity_threshold
    (content_list.drop start_from) start_from

/-- The strategy-2 scan loop of the robust matcher: header-type items
within the page range, matched by mutual light-normalized containment. -/
def s2Aux (light_target : List Char) (p : Int × Int) :
    List ContentItem → Nat → Option Nat
  | [], _ => none
  | c :: rest, i =>
    if !(decide (p.1 ≤ c.page_idx) && decide (c.page_idx ≤ p.2)) then
      s2Aux light_target p rest (i + 1)
    else if c.type ≠ "header" then s2Aux light_target p rest (i + 1)
    else
      let ct := extract_content_text c
      if ct = [] then s2Aux light_target p rest (i + 1)
      else
        let lc := normalize_title_light ct
        if strContains lc light_target || strContains light_target lc then some i
        else s2Aux light_target p rest (i + 1)

/-- Strategy 1 of the robust matcher: the standard search. -/
def robustS1 (t : List Char) (cl : List ContentItem)
    (pr : Option (Int × Int)) (thr : ℚ) (sf : Nat) : Option Nat :=
  find_title_in_content_list t cl pr thr sf

/-- Strategy 2: header items with light normalization, only when the
light target is nonempty and a page range is present. -/
def robustS2 (t : List Char) (cl : List ContentItem)
    (pr : Option (Int × Int)) (sf : Nat) : Option Nat :=
  let light := normalize_title_light t
  match pr with
  | some p => if light = [] then none else s2Aux light p (cl.drop sf) sf
  | none => none

/-- `(max(0, lo - d), hi + d)`. -/
def expandRange (p : Int × Int) (d : Int) : Int × Int :=
  (max 0 (p.1 - d), p.2 + d)

/-- Strategy 3: standard search with the page range expanded by ±2. -/
def robustS3 (t : List Char) (cl : List ContentItem)
    (pr : Option (Int × Int)) (thr : ℚ) (sf : Nat) : Option Nat :=
  match pr with
  | some p => find_title_in_content_list t cl (some (expandRange p 2)) thr sf
  | none => none

/-- Strategy 4: threshold lowered to 0.70 with the ±2-expanded range. -/
def robustS4 (t : List Char) (cl : List ContentItem)
    (pr : Option (Int × Int)) (sf : Nat) : Option Nat :=
  match pr with
  | some p => find_title_in_content_list t cl (some (expandRange p 2)) (mkRat 7 10) sf
  | none => none

/-- Strategy 5: standard search with the page range expanded by ±5. -/
def robustS5 (t : List Char) (cl : List ContentItem)
    (pr : Option (Int × Int)) (thr : ℚ) (sf : Nat) : Option Nat :=
  match pr with
  | some p => find_title_in_content_list t cl (some (expandRange p 5)) thr sf
  | none => none

/-- `TitleMatcher.find_title_in_content_list_robust`: the five-strategy
cascade, each strategy tried only when all earlier ones returned none. -/
def find_title_in_content_list_robust (t : List Char) (cl : List ContentItem)
    (pr : Option (Int × Int)) (thr : ℚ) (sf : Nat) : Option Nat :=
  match robustS1 t cl pr thr sf with
  | some r => some r
  | none =>
    match robustS2 t cl pr sf with
    | some r => some r
    | none =>
      match robustS3 t cl pr thr sf with
      | some r => some r
      | none =>
        match robustS4 t cl pr sf with
        | some r => some r
        | none => robustS5 t cl pr thr sf

/- ===================================================================
   Character-class facts for the normalization proofs
   =================================================================== -/

theorem toNat_ofNat_small (n : Nat) (h : n < 55296) : (Char.ofNat n).toNat = n := by
  rw [Char.ofNat, dif_pos (Or.inl h : Nat.isValidChar n)]
  simp [Char.ofNatAux, Char.toNat, UInt32.toNat, BitVec.toNat_ofNatLt]

theorem pyLower_eq_self_of_kept {c : Char} (h : isKeptChar c = true) : pyLower c = c := by
  simp only [isKeptChar, Bool.or_eq_true, Bool.and_eq_true, decide_eq_true_eq] at h
  simp only [pyLower, Char.toLower]
  rw [if_neg (by omega)]

theorem pyLower_eq_di {c : Char} (h : pyLower c = '第') : c = '第' := by
  simp only [pyLower, Char.toLower] at h
  by_cases hr : c.toNat ≥ 65 ∧ c.toNat ≤ 90
  · rw [if_pos hr] at h
    exfalso
    have h2 := congrArg Char.toNat h
    rw [toNat_ofNat_small (c.toNat + 32) (by omega)] at h2
    have h3 : ('第' : Char).toNat = 0x7B2C := by decide
    omega
  · rw [if_neg hr] at h
    exact h

theorem kept_not_space {c : Char} (h : isKeptChar c = true) : isPySpace c = false := by
  simp only [isKeptChar, Bool.or_eq_true, Bool.and_eq_true, decide_eq_true_eq] at h
  have h20 : c.toNat ≠ 0x20 ∧ c.toNat ≠ 0x9 ∧ c.toNat ≠ 0xA ∧ c.toNat ≠ 0xD ∧
      c.toNat ≠ 0xB ∧ c.toNat ≠ 0xC ∧ c.toNat ≠ 0xA0 ∧ c.toNat ≠ 0x3000 := by omega
  simp only [isPySpace, Bool.or_eq_false_iff, decide_eq_false_iff_not]
  refine ⟨⟨⟨⟨⟨⟨⟨?_, ?_⟩, ?_⟩, ?_⟩, ?_⟩, ?_⟩, ?_⟩, ?_⟩
  · exact fun he => h20.1 (by rw [he]; rfl)
  · exact fun he => h20.2.1 (by rw [he]; rfl)
  · exact fun he => h20.2.2.1 (by rw [he]; rfl)
  · exact fun he => h20.2.2.2.1 (by rw [he]; rfl)
  · exact h20.2.2.2.2.1
  · exact h20.2.2.2.2.2.1
  · exact h20.2.2.2.2.2.2.1
  · exact h20.2.2.2.2.2.2.2

theorem kept_not_paren {c : Char} (h : isKeptChar c = true) :
    isParenOpen c = false ∧ isParenClose c = false := by
  simp only [isKeptChar, Bool.or_eq_true, Bool.and_eq_true, decide_eq_true_eq] at h
  have hco : c.toNat ≠ 0xFF08 ∧ c.toNat ≠ 0x28 ∧ c.toNat ≠ 0xFF09 ∧ c.toNat ≠ 0x29 := by omega
  constructor
  · simp only [isParenOpen, Bool.or_eq_false_iff, decide_eq_false_iff_not]
    exact ⟨fun he => hco.1 (by rw [he]; rfl), fun he => hco.2.1 (by rw [he]; rfl)⟩
  · simp only [isParenClose, Bool.or_eq_false_iff, decide_eq_false_iff_not]
    exact ⟨fun he => hco.2.2.1 (by rw [he]; rfl), fun he => hco.2.2.2 (by rw [he]; rfl)⟩

theorem numeral_of_digit {c : Char} (h : c.isDigit = true) : isNumeralChar c = true := by
  simp [isNumeralChar, h]

/- ===================================================================
   Structural lemmas about the strip functions
   =================================================================== -/

theorem head_dropWhile_false {p : Char → Bool} :
    ∀ {l : List Char} {c : Char}, (l.dropWhile p).head? = some c → p c = false := by
  intro l
  induction l with
  | nil => intro c h; cases h
  | cons a t ih =>
    intro c h
    by_cases hp : p a = true
    · rw [List.dropWhile_cons_of_pos hp] at h
      exact ih h
    · rw [List.dropWhile_cons_of_neg hp] at h
      cases h
      simpa using hp

theorem head_mem_of_head_some {l : List Char} {c : Char} (h : l.head? = some c) : c ∈ l := by
  cases l with
  | nil => cases h
  | cons a t =>
    simp only [List.head?_cons, Option.some.injEq] at h
    exact h ▸ List.mem_cons_self a t

theorem stripNum1_sublist (l : List Char) : List.Sublist (stripNum1 l) l := by
  cases l with
  | nil => simp [stripNum1]
  | cons c rest =>
    simp only [stripNum1]
    split_ifs with h1 h2 h3
    · exact (((List.dropWhile_sublist _).trans (List.dropWhile_sublist _)).trans
        (List.sublist_cons_self c rest))
    · exact List.Sublist.refl _
    · exact ((List.dropWhile_sublist _).trans (List.dropWhile_sublist _))
    · exact List.Sublist.refl _

theorem dropOneClose_sublist (l : List Char) : List.Sublist (dropOneClose l) l := by
  cases l with
  | nil => simp [dropOneClose]
  | cons c rest =>
    simp only [dropOneClose]
    split_ifs with h1
    · exact List.sublist_cons_self c rest
    · exact List.Sublist.refl _

theorem stripNum2_sublist (l : List Char) : List.Sublist (stripNum2 l) l := by
  cases l with
  | nil => simp [stripNum2]
  | cons c rest =>
    simp only [stripNum2]
    split_ifs with h1 h2 h3
    · exact ((dropOneClose_sublist _).trans ((List.dropWhile_sublist _).trans
        (List.sublist_cons_self c rest)))
    · exact List.Sublist.refl _
    · exact ((dropOneClose_sublist _).trans (List.dropWhile_sublist _))
    · exact List.Sublist.refl _

theorem stripNum3_sublist (l : List Char) : List.Sublist (stripNum3 l) l := by
  simp only [stripNum3]
  split_ifs with h1
  · exact List.Sublist.refl _
  · cases hd : l.drop (l.takeWhile Char.isDigit).length with
    | nil => exact List.Sublist.refl _
    | cons c rest =>
      show (if (c = '.' || c = '、') = true then rest else l).Sublist l
      split_ifs with h2
      · have h1 : List.Sublist rest (c :: rest) := List.sublist_cons_self c rest
        have h2b : List.Sublist (c :: rest) l := by
          rw [← hd]; exact List.drop_sublist _ l
        exact h1.trans h2b
      · exact List.Sublist.refl _

theorem stripNum1_id {l : List Char}
    (h : ∀ c, l.head? = some c → c ≠ '第' ∧ isNumeralChar c = false) :
    stripNum1 l = l := by
  cases l with
  | nil => rfl
  | cons c rest =>
    obtain ⟨hne, hnum⟩ := h c rfl
    simp only [stripNum1]
    rw [if_neg hne, if_neg (by simp [hnum])]

theorem stripNum2_id {l : List Char}
    (h : ∀ c, l.head? = some c → isParenOpen c = false ∧ isNumeralChar c = false) :
    stripNum2 l = l := by
  cases l with
  | nil => rfl
  | cons c rest =>
    obtain ⟨hpar, hnum⟩ := h c rfl
    simp only [stripNum2]
    rw [if_neg (by simp [hpar]), if_neg (by simp [hnum])]

theorem stripNum3_id {l : List Char}
    (h : ∀ c, l.head? = some c → c.isDigit = false) :
    stripNum3 l = l := by
  cases l with
  | nil => rfl
  | cons c rest =>
    have hd := h c rfl
    simp only [stripNum3]
    rw [if_pos (by simp [List.takeWhile, hd])]

theorem stripNum2_head_not_numeral {l : List Char}
    (hno : ∀ c ∈ l, isParenOpen c = false ∧ isParenClose c = false) :
    ∀ c, (stripNum2 l).head? = some c → isNumeralChar c = false := by
  intro c hc
  cases l with
  | nil => cases hc
  | cons c0 rest =>
    have hpar0 := hno c0 (List.mem_cons_self c0 rest)
    simp only [stripNum2] at hc
    rw [if_neg (by simp [hpar0.1])] at hc
    by_cases hn0 : isNumeralChar c0 = true
    · rw [if_pos hn0] at hc
      cases hy : (c0 :: rest).dropWhile isNumeralChar with
      | nil => rw [hy] at hc; cases hc
      | cons c1 t =>
        rw [hy] at hc
        have hc1mem : c1 ∈ c0 :: rest :=
          (List.dropWhile_sublist _).subset (hy ▸ List.mem_cons_self c1 t)
        have hc1par := hno c1 hc1mem
        simp only [dropOneClose] at hc
        rw [if_neg (by simp [hc1par.2])] at hc
        cases hc
        exact head_dropWhile_false (l := c0 :: rest) (by rw [hy]; rfl)
    · rw [if_neg hn0] at hc
      cases hc
      simpa using hn0

theorem map_id_of_fixed {f : Char → Char} :
    ∀ {l : List Char}, (∀ c ∈ l, f c = c) → l.map f = l := by
  intro l
  induction l with
  | nil => intro _; rfl
  | cons a t ih =>
    intro h
    simp only [List.map_cons, h a (List.mem_cons_self a t),
      ih (fun c hc => h c (List.mem_cons_of_mem a hc))]

/-- Every character of a normalized title is in the kept class and comes
from the lowercased input. -/
theorem mem_normalize_title {l : List Char} {c : Char} (h : c ∈ normalize_title l) :
    isKeptChar c = true ∧ c ∈ l.map pyLower := by
  have hsub : List.Sublist (normalize_title l)
      (((l.map pyLower).filter (fun c => !isPySpace c)).filter isKeptChar) := by
    unfold normalize_title
    exact ((stripNum3_sublist _).trans ((stripNum2_sublist _).trans (stripNum1_sublist _)))
  have h1 := hsub.subset h
  rw [List.mem_filter] at h1
  obtain ⟨h2, hkept⟩ := h1
  rw [List.mem_filter] at h2
  exact ⟨hkept, h2.1⟩

/-- C7 counterexample: the title `"第1第2章"` normalizes to `"第2章"`,
which normalizes further to the empty string, so normalization is not
idempotent on it. -/
theorem normalize_title_not_idempotent :
    normalize_title ("第1第2章".toList) = "第2章".toList ∧
    normalize_title (normalize_title ("第1第2章".toList)) = [] ∧
    normalize_title (normalize_title ("第1第2章".toList)) ≠
      normalize_title ("第1第2章".toList) := by
  refine ⟨by decide, by decide, by decide⟩

/-- C7 (amended): title normalization is idempotent on every title that
does not contain the CJK ordinal marker `第` (in particular on all ASCII
titles); a title containing `第` can lose a further numbering prefix on
the second pass. -/
theorem normalize_title_idempotent_unless_marker :
    ∀ l : List Char, '第' ∉ l →
      normalize_title (normalize_title l) = normalize_title l := by
  intro l hdi
  have hykept : ∀ c ∈ ((l.map pyLower).filter (fun c => !isPySpace c)).filter isKeptChar,
      isKeptChar c = true := fun c hc => (List.mem_filter.mp hc).2
  have hmkept : ∀ c ∈ normalize_title l, isKeptChar c = true :=
    fun c hc => (mem_normalize_title hc).1
  have hmdi : '第' ∉ normalize_title l := by
    intro hmem
    obtain ⟨-, hmap⟩ := mem_normalize_title hmem
    obtain ⟨a, hal, hap⟩ := List.mem_map.mp hmap
    exact hdi (pyLower_eq_di hap ▸ hal)
  -- the last strip is the identity on the pipeline output, so the head of
  -- `normalize_title l` is the head of the `stripNum2` output, which is
  -- never a numeral
  have hxparen : ∀ c ∈ stripNum1 (((l.map pyLower).filter (fun c => !isPySpace c)).filter isKeptChar),
      isParenOpen c = false ∧ isParenClose c = false := by
    intro c hc
    exact kept_not_paren (hykept c ((stripNum1_sublist _).subset hc))
  have hm0head : ∀ c,
      (stripNum2 (stripNum1 (((l.map pyLower).filter (fun c => !isPySpace c)).filter isKeptChar))).head?
        = some c → isNumeralChar c = false :=
    stripNum2_head_not_numeral hxparen
  have hs3 : normalize_title l
      = stripNum2 (stripNum1 (((l.map pyLower).filter (fun c => !isPySpace c)).filter isKeptChar)) := by
    unfold normalize_title
    exact stripNum3_id (fun c hc => by
      have hnum := hm0head c hc
      by_contra hdig
      exact absurd (numeral_of_digit (by simpa using hdig)) (by simp [hnum]))
  have hmhead : ∀ c, (normalize_title l).head? = some c → isNumeralChar c = false := by
    intro c hc
    exact hm0head c (by rw [← hs3]; exact hc)
  -- second pass: every stage is the identity
  have hmap2 : (normalize_title l).map pyLower = normalize_title l :=
    map_id_of_fixed (fun c hc => pyLower_eq_self_of_kept (hmkept c hc))
  have hf1 : (normalize_title l).filter (fun c => !isPySpace c) = normalize_title l :=
    List.filter_eq_self.mpr (fun c hc => by rw [kept_not_space (hmkept c hc)]; rfl)
  have hf2 : (normalize_title l).filter isKeptChar = normalize_title l :=
    List.filter_eq_self.mpr (fun c hc => by rw [hmkept c hc])
  have hs1 : stripNum1 (normalize_title l) = normalize_title l :=
    stripNum1_id (fun c hc =>
      ⟨fun he => hmdi (he ▸ head_mem_of_head_some hc), hmhead c hc⟩)
  have hs2b : stripNum2 (normalize_title l) = normalize_title l :=
    stripNum2_id (fun c hc =>
      ⟨(kept_not_paren (hmkept c (head_mem_of_head_some hc))).1, hmhead c hc⟩)
  have hs3b : stripNum3 (normalize_title l) = normalize_title l :=
    stripNum3_id (fun c hc => by
      have hnum := hmhead c hc
      by_contra hdig
      exact absurd (numeral_of_digit (by simpa using hdig)) (by simp [hnum]))
  show stripNum3 (stripNum2 (stripNum1
      ((((normalize_title l).map pyLower).filter (fun c => !isPySpace c)).filter isKeptChar)))
    = normalize_title l
  rw [hmap2, hf1, hf2, hs1, hs2b, hs3b]

/-- Witness for the amended C7 at a concrete marker-free title. -/
theorem normalize_title_idempotent_unless_marker_witness :
    normalize_title (normalize_title ("2.4 Chapter  Overview!".toList)) =
      normalize_title ("2.4 Chapter  Overview!".toList) :=
  normalize_title_idempotent_unless_marker ("2.4 Chapter  Overview!".toList) (by decide)

/- ===================================================================
   C10 – empty strict normalization never matches
   =================================================================== -/

theorem is_title_contained_of_empty_target {target : List Char}
    (h : normalize_title target = []) :
    ∀ (content : List Char) (thr : ℚ), is_title_contained target content thr = false := by
  intro content thr
  simp [is_title_contained, h]

theorem ftlAux_none {target : List Char}
    (hfalse : ∀ ct thr, is_title_contained target ct thr = false) :
    ∀ (l : List ContentItem) (pr : Option (Int × Int)) (thr : ℚ) (i : Nat),
      ftlAux target pr thr l i = none := by
  intro l pr thr
  induction l with
  | nil => intro i; rfl
  | cons c rest ih =>
    intro i
    simp [ftlAux, hfalse, ih]

/-- C10: a title whose strict normalization is empty — e.g. the purely
numeric `"3.1.2"`, whose digits are stripped as a numbering prefix — is
rejected by `is_title_contained` against every content text at every
threshold, so `find_title_in_content_list` (strategy 1 of the cascade)
returns none on every content list. -/
theorem empty_normalization_never_matches :
    normalize_title ("3.1.2".toList) = [] ∧
    ∀ target : List Char, normalize_title target = [] →
      (∀ (content : List Char) (thr : ℚ), is_title_contained target content thr = false) ∧
      (∀ (cl : List ContentItem) (pr : Option (Int × Int)) (thr : ℚ) (sf : Nat),
        find_title_in_content_list target cl pr thr sf = none) := by
  refine ⟨by decide, ?_⟩
  intro target h
  refine ⟨is_title_contained_of_empty_target h, ?_⟩
  intro cl pr thr sf
  exact ftlAux_none (is_title_contained_of_empty_target h) _ pr thr sf

/-- Witness for C10 at the purely numeric title `"3.1.2"`. -/
theorem empty_normalization_never_matches_witness :
    is_title_contained ("3.1.2".toList) ("3.1.2 scope of supply".toList) (mkRat 85 100) = false ∧
    find_title_in_content_list ("3.1.2".toList)
      [{ type := "text", text := "3.1.2 scope of supply".toList, page_idx := 0 }]
      none (mkRat 85 100) 0 = none :=
  ⟨(empty_normalization_never_matches.2 _ (by decide)).1 _ _,
   (empty_normalization_never_matches.2 _ (by decide)).2 _ _ _ _⟩

/- ===================================================================
   C2 – the five-strategy cascade
   =================================================================== -/

/-- Sample title for the cascade scenarios. -/
def sampleTitle : List Char := "alpha beta".toList

/-- Content list whose only occurrence of the exact title sits on page 13,
3 pages above the nominal page range `(10, 10)`. -/
def sampleContentA : List ContentItem :=
  [{ type := "text", text := "zzz".toList, page_idx := 10 },
   { type := "text", text := "alpha beta".toList, page_idx := 13 }]

/-- Content list that contains the title nowhere. -/
def sampleContentB : List ContentItem :=
  [{ type := "text", text := "zzz".toList, page_idx := 10 }]

set_option maxRecDepth 400000 in
/-- C2: `find_title_in_content_list_robust` tries its five strategies
strictly in order — each strategy only when all earlier ones returned
none — and returns the first success; on `sampleContentA`, where the
exact title occurs only 3 pages outside the nominal range `(10, 10)`,
strategy 1 fails and the ±5-page expanded-range strategy 5 succeeds
(strategies 2–4 also fail, the ±2 expansion being too narrow); on
`sampleContentB`, which contains the title nowhere, all five strategies
fail and the function returns none. -/
theorem find_title_robust_cascade_spec :
    (∀ t cl pr thr sf i, robustS1 t cl pr thr sf = some i →
      find_title_in_content_list_robust t cl pr thr sf = some i) ∧
    (∀ t cl pr thr sf i, robustS1 t cl pr thr sf = none →
      robustS2 t cl pr sf = some i →
      find_title_in_content_list_robust t cl pr thr sf = some i) ∧
    (∀ t cl pr thr sf i, robustS1 t cl pr thr sf = none →
      robustS2 t cl pr sf = none → robustS3 t cl pr thr sf = some i →
      find_title_in_content_list_robust t cl pr thr sf = some i) ∧
    (∀ t cl pr thr sf i, robustS1 t cl pr thr sf = none →
      robustS2 t cl pr sf = none → robustS3 t cl pr thr sf = none →
      robustS4 t cl pr sf = some i →
      find_title_in_content_list_robust t cl pr thr sf = some i) ∧
    (∀ t cl pr thr sf, robustS1 t cl pr thr sf = none →
      robustS2 t cl pr sf = none → robustS3 t cl pr thr sf = none →
      robustS4 t cl pr sf = none →
      find_title_in_content_list_robust t cl pr thr sf = robustS5 t cl pr thr sf) ∧
    (robustS1 sampleTitle sampleContentA (some (10, 10)) (mkRat 85 100) 0 = none ∧
     robustS2 sampleTitle sampleContentA (some (10, 10)) 0 = none ∧
     robustS3 sampleTitle sampleContentA (some (10, 10)) (mkRat 85 100) 0 = none ∧
     robustS4 sampleTitle sampleContentA (some (10, 10)) 0 = none ∧
     robustS5 sampleTitle sampleContentA (some (10, 10)) (mkRat 85 100) 0 = some 1 ∧
     find_title_in_content_list_robust sampleTitle sampleContentA
       (some (10, 10)) (mkRat 85 100) 0 = some 1) ∧
    find_title_in_content_list_robust sampleTitle sampleContentB
      (some (10, 10)) (mkRat 85 100) 0 = none := by
  refine ⟨?_, ?_, ?_, ?_, ?_, by decide, by decide⟩
  · intro t cl pr thr sf i h1
    simp [find_title_in_content_list_robust, h1]
  · intro t cl pr thr sf i h1 h2
    simp [find_title_in_content_list_robust, h1, h2]
  · intro t cl pr thr sf i h1 h2 h3
    simp [find_title_in_content_list_robust, h1, h2, h3]
  · intro t cl pr thr sf i h1 h2 h3 h4
    simp [find_title_in_content_list_robust, h1, h2, h3, h4]
  · intro t cl pr thr sf h1 h2 h3 h4
    simp [find_title_in_content_list_robust, h1, h2, h3, h4]

set_option maxRecDepth 400000 in
/-- Witness for C2: when strategy 1 itself succeeds (exact title on a
page inside the range), the cascade returns its result. -/
theorem find_title_robust_cascade_spec_witness :
    find_title_in_content_list_robust sampleTitle
      [{ type := "text", text := "alpha beta".toList, page_idx := 10 }]
      (some (10, 10)) (mkRat 85 100) 0 = some 0 :=
  find_title_robust_cascade_spec.1 sampleTitle
    [{ type := "text", text := "alpha beta".toList, page_idx := 10 }]
    (some (10, 10)) (mkRat 85 100) 0 0 (by decide)

/- ===================================================================
   quality_report.py – QualityReportService
   =================================================================== -/

mutual

/-- A PageIndex document-tree node as read by the quality report:
children (`nodes`), attached original-text clauses (`clauses`) and bbox
positions (`positions`). -/
inductive QNode where
  | mk (nodes : QForest) (clauses : List String) (positions : List (List Int))

/-- A list of document-tree nodes (the `structure` array / a `nodes`
array). -/
inductive QForest where
  | nil
  | cons (head : QNode) (tail : QForest)

end

def QForest.isEmpty : QForest → Bool
  | .nil => true
  | .cons _ _ => false

mutual

/-- `calculate_content_extraction_rate`'s `traverse_node`:
`(total_sections, sections_with_content)` — a node with no children is a
leaf section, counted, and counted as successful when it carries at
least one clause; children are traversed recursively. -/
def contentStatsN : QNode → Nat × Nat
  | .mk nodes clauses _ =>
    ((if nodes.isEmpty then 1 else 0) + (contentStatsF nodes).1,
     (if nodes.isEmpty then (if clauses.isEmpty then 0 else 1) else 0) +
       (contentStatsF nodes).2)

def contentStatsF : QForest → Nat × Nat
  | .nil => (0, 0)
  | .cons n t =>
    ((contentStatsN n).1 + (contentStatsF t).1,
     (contentStatsN n).2 + (contentStatsF t).2)

end

mutual

/-- `calculate_content_bbox_rate`'s `traverse_node`:
`(total_sections, sections_with_bbox)` over leaf nodes. -/
def bboxStatsN : QNode → Nat × Nat
  | .mk nodes _ positions =>
    ((if nodes.isEmpty then 1 else 0) + (bboxStatsF nodes).1,
     (if nodes.isEmpty then (if positions.isEmpty then 0 else 1) else 0) +
       (bboxStatsF nodes).2)

def bboxStatsF : QForest → Nat × Nat
  | .nil => (0, 0)
  | .cons n t =>
    ((bboxStatsN n).1 + (bboxStatsF t).1,
     (bboxStatsN n).2 + (bboxStatsF t).2)

end

mutual

/-- Reference count of the leaf outline nodes of a tree (nodes with an
empty `nodes` array), stated independently of the two traversals. -/
def leafCountN : QNode → Nat
  | .mk nodes _ _ => (if nodes.isEmpty then 1 else 0) + leafCountF nodes

def leafCountF : QForest → Nat
  | .nil => 0
  | .cons n t => leafCountN n + leafCountF t

end

/-- A row of `final_matrix` as read by `calculate_clause_bbox_rate`:
only `positions` is consulted. -/
structure MatrixRow where
  positions : List (List Int) := []

/-- `middle.json` data: spans (with optional `score`) in lines in
paragraph blocks in pages. -/
structure MSpan where
  score : Option ℚ

structure MLine where
  spans : List MSpan

structure MParaBlock where
  lines : List MLine

structure MPage where
  para_blocks : List MParaBlock

structure MiddleData where
  pdf_info : List MPage

/-- The nested score-collection loops of `calculate_parse_confidence`. -/
def collectScores (m : MiddleData) : List ℚ :=
  ((m.pdf_info.map fun p =>
    ((p.para_blocks.map fun b =>
      ((b.lines.map fun ln =>
        ln.spans.filterMap fun sp => sp.score)).flatten)).flatten)).flatten

/-- `QualityReportService.calculate_parse_confidence`: returns
`(avg_confidence, total_count)`; `(0, 0)` when no score is found. -/
def calculate_parse_confidence (m : MiddleData) : ℚ × Nat :=
  let scores := collectScores m
  if scores.isEmpty then (0, 0)
  else (scores.sum / (scores.length : ℚ), scores.length)

/-- The quality report, restricted to the numeric fields (generation
timestamp and pdf name omitted). -/
structure QualityReport where
  avg_parse_confidence : ℚ
  total_score_count : Nat
  content_extraction_success_rate : ℚ
  total_sections : Nat
  sections_with_content : Nat
  content_bbox_match_rate : ℚ
  sections_with_bbox : Nat
  clause_bbox_match_rate : ℚ
  total_clauses : Nat
  clauses_with_bbox : Nat

/-- `QualityReportService.generate_report`: `middle` is the parsed
`middle.json` when one was found (`None` otherwise — the parse stats
default to `(0, 0)`), `tree` the `structure` array of the document tree,
`final_matrix` the clause list. -/
def generate_report (middle : Option MiddleData) (tree : QForest)
    (final_matrix : List MatrixRow) : QualityReport :=
  let parse := match middle with
    | some m => calculate_parse_confidence m
    | none => ((0 : ℚ), 0)
  let cs := contentStatsF tree
  let bs := bboxStatsF tree
  let tc := final_matrix.length
  let cwb := (final_matrix.filter fun r => !r.positions.isEmpty).length
  { avg_parse_confidence := parse.1
    total_score_count := parse.2
    content_extraction_success_rate :=
      if cs.1 > 0 then (cs.2 : ℚ) / (cs.1 : ℚ) else 0
    total_sections := cs.1
    sections_with_content := cs.2
    content_bbox_match_rate :=
      if bs.1 > 0 then (bs.2 : ℚ) / (bs.1 : ℚ) else 0
    sections_with_bbox := bs.2
    clause_bbox_match_rate :=
      if tc > 0 then (cwb : ℚ) / (tc : ℚ) else 0
    total_clauses := tc
    clauses_with_bbox := cwb }

/-- The scores the report is computed from (empty when no `middle.json`
was found). -/
def scoresOf : Option MiddleData → List ℚ
  | some m => collectScores m
  | none => []

mutual

theorem contentStatsN_le_and_leaf (n : QNode) :
    (contentStatsN n).2 ≤ (contentStatsN n).1 ∧ (contentStatsN n).1 = leafCountN n :=
  match n with
  | .mk nodes clauses positions => by
    have hf := contentStatsF_le_and_leaf nodes
    simp only [contentStatsN, leafCountN]
    constructor
    · split_ifs <;> omega
    · omega

theorem contentStatsF_le_and_leaf (f : QForest) :
    (contentStatsF f).2 ≤ (contentStatsF f).1 ∧ (contentStatsF f).1 = leafCountF f :=
  match f with
  | .nil => by simp [contentStatsF, leafCountF]
  | .cons n t => by
    have hn := contentStatsN_le_and_leaf n
    have ht := contentStatsF_le_and_leaf t
    simp only [contentStatsF, leafCountF]
    omega

end

mutual

theorem bboxStatsN_le_and_leaf (n : QNode) :
    (bboxStatsN n).2 ≤ (bboxStatsN n).1 ∧ (bboxStatsN n).1 = leafCountN n :=
  match n with
  | .mk nodes clauses positions => by
    have hf := bboxStatsF_le_and_leaf nodes
    simp only [bboxStatsN, leafCountN]
    constructor
    · split_ifs <;> omega
    · omega

theorem bboxStatsF_le_and_leaf (f : QForest) :
    (bboxStatsF f).2 ≤ (bboxStatsF f).1 ∧ (bboxStatsF f).1 = leafCountF f :=
  match f with
  | .nil => by simp [bboxStatsF, leafCountF]
  | .cons n t => by
    have hn := bboxStatsN_le_and_leaf n
    have ht := bboxStatsF_le_and_leaf t
    simp only [bboxStatsF, leafCountF]
    omega

end

/-- A count-over-count rate lies in `[0, 1]`. -/
theorem rate_mem_unit {a b : Nat} (hab : a ≤ b) :
    0 ≤ (if b > 0 then (a : ℚ) / (b : ℚ) else 0) ∧
    (if b > 0 then (a : ℚ) / (b : ℚ) else 0) ≤ 1 := by
  split_ifs with hb
  · constructor
    · positivity
    · rw [div_le_one (by exact_mod_cast hb)]
      exact_mod_cast hab
  · norm_num

theorem avg_mem_unit {scores : List ℚ} (hne : ¬ scores.isEmpty = true)
    (h : ∀ s ∈ scores, 0 ≤ s ∧ s ≤ 1) :
    0 ≤ scores.sum / (scores.length : ℚ) ∧ scores.sum / (scores.length : ℚ) ≤ 1 := by
  have hlen : 0 < scores.length := by
    cases scores with
    | nil => simp at hne
    | cons a t => simp
  have hlenq : (0 : ℚ) < (scores.length : ℚ) := by exact_mod_cast hlen
  constructor
  · apply div_nonneg (List.sum_nonneg (fun s hs => (h s hs).1)) (le_of_lt hlenq)
  · rw [div_le_one hlenq]
    calc scores.sum ≤ scores.length • (1 : ℚ) :=
        List.sum_le_card_nsmul scores 1 (fun s hs => (h s hs).2)
      _ = (scores.length : ℚ) := by simp

/-- C8: for every (optional) parsed `middle.json` whose scores lie in
`[0, 1]`, every document tree and every clause list, the four metrics of
the generated quality report lie in `[0, 1]`; each rate's denominator
equals the correspondingly named total stored in the report
(`total_sections`, `total_clauses`, `total_score_count` — in particular
the bbox traversal's denominator equals the stored `total_sections`);
and the section totals count exactly the leaf outline nodes. -/
theorem generate_report_spec :
    ∀ (middle : Option MiddleData) (tree : QForest) (final_matrix : List MatrixRow),
      (∀ s ∈ scoresOf middle, 0 ≤ s ∧ s ≤ 1) →
      (0 ≤ (generate_report middle tree final_matrix).avg_parse_confidence ∧
        (generate_report middle tree final_matrix).avg_parse_confidence ≤ 1) ∧
      (0 ≤ (generate_report middle tree final_matrix).content_extraction_success_rate ∧
        (generate_report middle tree final_matrix).content_extraction_success_rate ≤ 1) ∧
      (0 ≤ (generate_report middle tree final_matrix).content_bbox_match_rate ∧
        (generate_report middle tree final_matrix).content_bbox_match_rate ≤ 1) ∧
      (0 ≤ (generate_report middle tree final_matrix).clause_bbox_match_rate ∧
        (generate_report middle tree final_matrix).clause_bbox_match_rate ≤ 1) ∧
      (generate_report middle tree final_matrix).content_extraction_success_rate =
        (if (generate_report middle tree final_matrix).total_sections > 0 then
          ((generate_report middle tree final_matrix).sections_with_content : ℚ) /
            ((generate_report middle tree final_matrix).total_sections : ℚ) else 0) ∧
      (bboxStatsF tree).1 = (generate_report middle tree final_matrix).total_sections ∧
      (generate_report middle tree final_matrix).content_bbox_match_rate =
        (if (generate_report middle tree final_matrix).total_sections > 0 then
          ((generate_report middle tree final_matrix).sections_with_bbox : ℚ) /
            ((generate_report middle tree final_matrix).total_sections : ℚ) else 0) ∧
      (generate_report middle tree final_matrix).clause_bbox_match_rate =
        (if (generate_report middle tree final_matrix).total_clauses > 0 then
          ((generate_report middle tree final_matrix).clauses_with_bbox : ℚ) /
            ((generate_report middle tree final_matrix).total_clauses : ℚ) else 0) ∧
      (generate_report middle tree final_matrix).total_clauses = final_matrix.length ∧
      (generate_report middle tree final_matrix).total_score_count =
        (scoresOf middle).length ∧
      (generate_report middle tree final_matrix).total_sections = leafCountF tree := by
  intro middle tree final_matrix hsc
  have hcs := contentStatsF_le_and_leaf tree
  have hbs := bboxStatsF_le_and_leaf tree
  have havg : 0 ≤ (generate_report middle tree final_matrix).avg_parse_confidence ∧
      (generate_report middle tree final_matrix).avg_parse_confidence ≤ 1 := by
    cases middle with
    | none => simp [generate_report]
    | some m =>
      simp only [generate_report, calculate_parse_confidence]
      by_cases hemp : (collectScores m).isEmpty = true
      · simp [hemp]
      · simp only [hemp, if_neg (by simp : ¬ (false = true))]
        exact avg_mem_unit hemp (by simpa [scoresOf] using hsc)
  refine ⟨havg, ?_, ?_, ?_, rfl, ?_, ?_, rfl, rfl, ?_, ?_⟩
  · exact rate_mem_unit hcs.1
  · exact rate_mem_unit hbs.1
  · exact rate_mem_unit (List.length_filter_le _ _)
  · simp only [generate_report]
    omega
  · have h6 : (bboxStatsF tree).1 = (contentStatsF tree).1 := by omega
    simp only [generate_report]
    rw [h6]
  · cases middle with
    | none => simp [generate_report, scoresOf]
    | some m =>
      simp only [generate_report, calculate_parse_confidence, scoresOf]
      by_cases hemp : (collectScores m).isEmpty = true
      · simp [hemp, List.isEmpty_iff.mp hemp]
      · simp [hemp]
  · simp only [generate_report]
    omega

/-- Witness for C8 at a concrete one-leaf tree, one clause and a single
span score ½. -/
theorem generate_report_spec_witness :
    (0 ≤ (generate_report
        (some ⟨[⟨[⟨[⟨[⟨some (mkRat 1 2)⟩]⟩]⟩]⟩]⟩)
        (QForest.cons (QNode.mk QForest.nil ["clause"] []) QForest.nil)
        [{ positions := [[0, 1, 2, 3, 4]] }]).avg_parse_confidence ∧
      (generate_report
        (some ⟨[⟨[⟨[⟨[⟨some (mkRat 1 2)⟩]⟩]⟩]⟩]⟩)
        (QForest.cons (QNode.mk QForest.nil ["clause"] []) QForest.nil)
        [{ positions := [[0, 1, 2, 3, 4]] }]).avg_parse_confidence ≤ 1) ∧
    (generate_report
        (some ⟨[⟨[⟨[⟨[⟨some (mkRat 1 2)⟩]⟩]⟩]⟩]⟩)
        (QForest.cons (QNode.mk QForest.nil ["clause"] []) QForest.nil)
        [{ positions := [[0, 1, 2, 3, 4]] }]).total_sections =
      leafCountF (QForest.cons (QNode.mk QForest.nil ["clause"] []) QForest.nil) := by
  have h := generate_report_spec
    (some ⟨[⟨[⟨[⟨[⟨some (mkRat 1 2)⟩]⟩]⟩]⟩]⟩)
    (QForest.cons (QNode.mk QForest.nil ["clause"] []) QForest.nil)
    [{ positions := [[0, 1, 2, 3, 4]] }]
    (by
      intro s hs
      simp only [scoresOf, collectScores, List.map_cons, List.map_nil,
        List.filterMap_cons, List.filterMap_nil, List.flatten] at hs
      simp at hs
      rw [hs]
      exact ⟨by decide, by decide⟩)
  exact ⟨h.1, h.2.2.2.2.2.2.2.2.2.2⟩

end CiteOrDie
